import Mathlib

/-!
Verification development for the traceroute-dashboard server
(`src/server.py`).  The Python source is shallowly embedded below:
pure parsing code becomes Lean functions on `List Char` / `String`,
the stateful geolocation cache becomes explicit state passing over an
association list, the worker interleavings of the geolocation resolver
become a small scheduled step function, and Python exceptions become
`Except`/`Option` results.  Latencies and coordinates are modelled as
rationals (the inputs of interest are short decimal literals, where
IEEE doubles and rationals agree).  Regular-expression matching with
`re.match` is embedded as deterministic maximal-munch scanning, which
coincides with the backtracking semantics for the three patterns of
`run_traceroute` because every greedy character class there is
disjoint from the character that must follow it.  The embedding is
restricted to the ASCII fragment of Python's `\s`, `\d` and `str.strip`
character classes.
-/

namespace TracerouteDashboard

/-! ### Python character classes and string primitives -/

/-- ASCII fragment of Python's regex `\s` / `str.strip` whitespace class. -/
def pyWs (c : Char) : Bool :=
  c = ' ' || c = '\t' || c = '\n' || c = '\r' || c = '\x0b' || c = '\x0c'

/-- ASCII fragment of Python's regex `\d` class. -/
def pyDigit (c : Char) : Bool := c.isDigit

/-- The character class `[\d.]` used for latencies in `server.py` lines 51 and 61. -/
def floatClass (c : Char) : Bool := c.isDigit || c = '.'

/-- Regex `\s*`: skip any run of whitespace. -/
def dropSpaces (l : List Char) : List Char := l.dropWhile pyWs

/-- Greedy `p+`: consume a non-empty maximal run of characters satisfying `p`,
returning the run and the remainder, or `none` when the first character fails `p`. -/
def takeWhile1 (p : Char → Bool) (l : List Char) : Option (List Char × List Char) :=
  match l.takeWhile p with
  | [] => none
  | t => some (t, l.dropWhile p)

/-- Consume one expected literal character. -/
def expect (c : Char) : List Char → Option (List Char)
  | [] => none
  | x :: r => if x = c then some r else none

/-- Value of a digit string, as computed by Python's `int` on `\d+` matches. -/
def natOfDigits (l : List Char) : Nat := l.foldl (fun n c => 10 * n + (c.toNat - 48)) 0

/-- Python's `str.strip()` (ASCII whitespace fragment). -/
def pyStrip (l : List Char) : List Char :=
  ((l.dropWhile pyWs).reverse.dropWhile pyWs).reverse

/-- Python's `str.split("\n")`: split on every newline, keeping empty pieces. -/
def splitNl : List Char → List (List Char)
  | [] => [[]]
  | c :: r =>
    match splitNl r with
    | [] => [[c]]
    | g :: gs => if c = '\n' then [] :: g :: gs else (c :: g) :: gs

/-- Python's `str.startswith`: the pattern is a prefix of the character sequence. -/
def pyStartswith (s pre : String) : Bool := pre.data.isPrefixOf s.data

/-- Python's `float()` applied to a match of the class `[\d.]+`: it succeeds
exactly when the token has at least one digit and at most one dot, and raises
`ValueError` otherwise (e.g. on `"1.2.3"` or `"."`).  The numeric value is the
usual decimal reading. -/
def pyFloat (l : List Char) : Option ℚ :=
  if l.any pyDigit && l.count '.' ≤ 1 then
    let ipart := l.takeWhile (fun c => c ≠ '.')
    let fpart := (l.dropWhile (fun c => c ≠ '.')).drop 1
    some (mkRat (natOfDigits ipart * 10 ^ fpart.length + natOfDigits fpart)
      (10 ^ fpart.length))
  else
    none

/-! ### Data model -/

/-- Geolocation record built at `server.py` lines 95-104. -/
structure Geo where
  lat : ℚ
  lon : ℚ
  city : String
  region : String
  country : String
  isp : String
  org : String
  asn : String
deriving DecidableEq, Repr

/-- One parsed hop (`server.py` lines 53-78); `geo` is attached later at lines 132-137. -/
structure Hop where
  hop : Nat
  host : String
  ip : Option String
  rtt_ms : Option ℚ
  geo : Option Geo
deriving DecidableEq, Repr

/-! ### The three hop-line patterns of `run_traceroute` -/

/-- The shared regex prefix `\s*(\d+)\s+`: optional whitespace, the index
group, one-or-more whitespace.  Returns the index digits and the rest. -/
def matchIdxWs (l : List Char) : Option (List Char × List Char) :=
  match takeWhile1 pyDigit (dropSpaces l) with
  | none => none
  | some (ds, l1) =>
    match takeWhile1 pyWs l1 with
    | none => none
    | some (_, l2) => some (ds, l2)

/-- `\.\d+`: a literal dot followed by a digit group. -/
def dotDigits (l : List Char) : Option (List Char × List Char) :=
  match expect '.' l with
  | none => none
  | some l1 => takeWhile1 pyDigit l1

/-- `(\d+\.\d+\.\d+\.\d+)`: a dotted quad; returns the matched text and the rest. -/
def matchQuad (l : List Char) : Option (List Char × List Char) :=
  match takeWhile1 pyDigit l with
  | none => none
  | some (a, l1) =>
    match dotDigits l1 with
    | none => none
    | some (b, l2) =>
      match dotDigits l2 with
      | none => none
      | some (c, l3) =>
        match dotDigits l3 with
        | none => none
        | some (d, l4) => some (a ++ '.' :: b ++ '.' :: c ++ '.' :: d, l4)

/-- `([\d.]+)\s*ms`: the latency group, optional whitespace, the literal `ms`
(anything may follow, as `re.match` does not anchor the end).  Returns the
latency text. -/
def matchRttMs (l : List Char) : Option (List Char) :=
  match takeWhile1 floatClass l with
  | none => none
  | some (fs, l1) =>
    match expect 'm' (dropSpaces l1) with
    | none => none
    | some l2 =>
      match expect 's' l2 with
      | none => none
      | some _ => some fs

/-- The regex of `server.py` line 51,
`\s*(\d+)\s+(\S+)\s+\((\d+\.\d+\.\d+\.\d+)\)\s+([\d.]+)\s*ms`, under `re.match`.
Returns the captured groups (index value, host text, ip text, latency text). -/
def matchHopLine1 (l : List Char) : Option (Nat × List Char × List Char × List Char) :=
  match matchIdxWs l with
  | none => none
  | some (ds, l1) =>
    match takeWhile1 (fun c => !pyWs c) l1 with
    | none => none
    | some (hostCs, l2) =>
      match takeWhile1 pyWs l2 with
      | none => none
      | some (_, l3) =>
        match expect '(' l3 with
        | none => none
        | some l4 =>
          match matchQuad l4 with
          | none => none
          | some (ipCs, l5) =>
            match expect ')' l5 with
            | none => none
            | some l6 =>
              match takeWhile1 pyWs l6 with
              | none => none
              | some (_, l7) =>
                match matchRttMs l7 with
                | none => none
                | some fs => some (natOfDigits ds, hostCs, ipCs, fs)

/-- The regex of `server.py` line 61,
`\s*(\d+)\s+(\d+\.\d+\.\d+\.\d+)\s+([\d.]+)\s*ms`, under `re.match`. -/
def matchHopLine2 (l : List Char) : Option (Nat × List Char × List Char) :=
  match matchIdxWs l with
  | none => none
  | some (ds, l1) =>
    match matchQuad l1 with
    | none => none
    | some (ipCs, l2) =>
      match takeWhile1 pyWs l2 with
      | none => none
      | some (_, l3) =>
        match matchRttMs l3 with
        | none => none
        | some fs => some (natOfDigits ds, ipCs, fs)

/-- The regex of `server.py` line 71, `\s*(\d+)\s+\*`, under `re.match`. -/
def matchHopLine3 (l : List Char) : Option Nat :=
  match matchIdxWs l with
  | none => none
  | some (ds, l1) =>
    match expect '*' l1 with
    | none => none
    | some _ => some (natOfDigits ds)

/-- Classification of one stripped line (`server.py` lines 50-78): the three
patterns are tried in order, the first match wins, no match drops the line
(`.ok none`), and a matched latency group that Python's `float` rejects raises
`ValueError` (`.error`). -/
def lineToHop (l : List Char) : Except String (Option Hop) :=
  match matchHopLine1 l with
  | some (idx, hostCs, ipCs, fs) =>
    match pyFloat fs with
    | some q => .ok (some ⟨idx, ⟨hostCs⟩, some ⟨ipCs⟩, some q, none⟩)
    | none => .error "ValueError"
  | none =>
    match matchHopLine2 l with
    | some (idx, ipCs, fs) =>
      match pyFloat fs with
      | some q => .ok (some ⟨idx, ⟨ipCs⟩, some ⟨ipCs⟩, some q, none⟩)
      | none => .error "ValueError"
    | none =>
      match matchHopLine3 l with
      | some idx => .ok (some ⟨idx, "*", none, none, none⟩)
      | none => .ok none

/-- The parsing loop of `server.py` lines 45-78: strip each line, skip empty
lines, classify the rest, append produced hops in input order; a raised
`ValueError` aborts the whole loop. -/
def parseLines : List (List Char) → Except String (List Hop)
  | [] => .ok []
  | l :: ls =>
    let s := pyStrip l
    if s.isEmpty then parseLines ls
    else
      match lineToHop s with
      | .error e => .error e
      | .ok none => parseLines ls
      | .ok (some h) =>
        match parseLines ls with
        | .error e => .error e
        | .ok hs => .ok (h :: hs)

/-- `output.strip().split("\n")[1:]` followed by the parsing loop
(`server.py` lines 45-79). -/
def parseHops (out : String) : Except String (List Hop) :=
  parseLines ((splitNl (pyStrip out.data)).drop 1)

/-! ### Probe runner -/

/-- Outcome of the two `subprocess.run` attempts of `server.py` lines 29-43:
either some attempt produced stdout text, or both attempts failed with the
final exception message `e`. -/
inductive TrOutcome where
  | ok (stdout : String)
  | fail (err : String)
deriving DecidableEq, Repr

/-- The dictionary returned by `run_traceroute`: either
`{"error": ..., "hops": []}` (line 43) or `{"hops": ..., "raw": ...}` (line 79). -/
structure TrResult where
  hops : List Hop
  error : Option String
  raw : Option String
deriving DecidableEq, Repr

/-- `run_traceroute` (`server.py` lines 27-79).  On a double probe failure it
returns the error dictionary without raising; on probe output it parses the
hops, and a parse-time `ValueError` escapes the function (`.error`). -/
def run_traceroute (o : TrOutcome) : Except String TrResult :=
  match o with
  | .fail e => .ok ⟨[], some e, none⟩
  | .ok out =>
    match parseHops out with
    | .error e => .error e
    | .ok hs => .ok ⟨hs, none, some out⟩

/-! ### Geolocation resolver -/

/-- The process-wide `GEO_CACHE` dictionary, observed through `in` / `[ip]` /
`.get`: an association list searched from the front. -/
abbrev GeoCache := List (String × Geo)

/-- `ip in GEO_CACHE` / `GEO_CACHE.get(ip)`. -/
def cacheLookup (ip : String) (m : GeoCache) : Option Geo :=
  (m.find? (fun p => p.1 == ip)).map (·.2)

/-- `GEO_CACHE[ip] = geo` (`server.py` line 106): plain dictionary assignment,
i.e. an existing entry for the key is overwritten (the new binding shadows
any older one under `cacheLookup`). -/
def cacheInsert (ip : String) (g : Geo) (m : GeoCache) : GeoCache := (ip, g) :: m

/-- Result of the HTTP lookup of `server.py` lines 90-93: a transport error,
timeout or other raised exception (`err`), or a decoded JSON object.  `lat` and
`lon` are read with `data["lat"]`/`data["lon"]` (a missing key raises, caught
by the bare `except`); the remaining fields are read with `.get` defaults. -/
inductive NetResponse where
  | err
  | ok (status : String) (lat lon : Option ℚ)
      (city region country isp org asn : Option String)
deriving DecidableEq, Repr

/-- The local reject of `server.py` line 84:
`not ip or ip.startswith("10.") or ip.startswith("192.168.") or ip.startswith("172.")`. -/
def privateFiltered (ip : String) : Bool :=
  ip.data.isEmpty || pyStartswith ip "10." || pyStartswith ip "192.168." ||
    pyStartswith ip "172."

/-- `geolocate_ip` (`server.py` lines 82-110), with the network modelled by the
oracle `net`.  Returns the geo result, the cache after the call, and whether a
network request was issued. -/
def geolocate_ip (ip : String) (st : GeoCache) (net : String → NetResponse) :
    Option Geo × GeoCache × Bool :=
  if privateFiltered ip then (none, st, false)
  else
    match cacheLookup ip st with
    | some g => (some g, st, false)
    | none =>
      match net ip with
      | .err => (none, st, true)
      | .ok status lat lon ci re co i o a =>
        if status = "success" then
          match lat, lon with
          | some la, some lo =>
            let g : Geo := ⟨la, lo, ci.getD "", re.getD "", co.getD "", i.getD "",
              o.getD "", a.getD ""⟩
            (some g, cacheInsert ip g st, true)
          | _, _ => (none, st, true)
        else (none, st, true)

/-! ### Per-target pipeline -/

/-- One configured target: `{"name": ..., "host": ...}`. -/
structure Target where
  name : String
  host : String
deriving DecidableEq, Repr

/-- The dictionary built at `server.py` lines 139-146 (and the failure stub of
lines 172-180). -/
structure TargetResult where
  name : String
  host : String
  category : String
  hop_count : Nat
  total_rtt : Option ℚ
  hops : List Hop
  error : Option String
deriving DecidableEq, Repr

/-- `list(dict.fromkeys(ips))` (`server.py` line 121): dedupe keeping the first
occurrence of each element, preserving order. -/
def dedupKeepFirst (l : List String) : List String :=
  l.foldl (fun acc ip => if ip ∈ acc then acc else acc ++ [ip]) []

/-- The per-hop geo attachment of `server.py` lines 132-137:
`hop["geo"] = GEO_CACHE.get(hop["ip"])` when the hop has an ip, else `None`. -/
def attachGeo (st : GeoCache) (h : Hop) : Hop :=
  match h.ip with
  | some ip => { h with geo := cacheLookup ip st }
  | none => { h with geo := none }

/-- `server.py` line 144:
`tr["hops"][-1]["rtt_ms"] if tr["hops"] and tr["hops"][-1]["rtt_ms"] else None`.
Python truthiness makes both a missing rtt and an rtt of `0.0` fall to `None`. -/
def totalRtt (hops : List Hop) : Option ℚ :=
  match hops.getLast? with
  | none => none
  | some h =>
    match h.rtt_ms with
    | none => none
    | some q => if q = 0 then none else some q

/-- `process_target` (`server.py` lines 113-146): run the probe, dedupe hop
ips, resolve each uncached ip once (ignoring the result, which lands in the
cache), attach cached geo to every hop, and build the result dictionary.  The
returned dictionary carries no `"error"` key, so `error := none` always; a
parse-time exception escapes (`.error`) to the orchestrator. -/
def process_target (category : String) (t : Target) (o : TrOutcome)
    (st0 : GeoCache) (net : String → NetResponse) :
    Except String (TargetResult × GeoCache) :=
  match run_traceroute o with
  | .error e => .error e
  | .ok tr =>
    let ips := tr.hops.filterMap (fun h =>
      match h.ip with
      | some s => if s.data.isEmpty then none else some s
      | none => none)
    let uips := dedupKeepFirst ips
    let st1 := uips.foldl (fun st ip =>
      match cacheLookup ip st with
      | some _ => st
      | none => (geolocate_ip ip st net).2.1) st0
    let hops2 := tr.hops.map (attachGeo st1)
    .ok (⟨t.name, t.host, category, tr.hops.length, totalRtt hops2, hops2, none⟩, st1)

/-! ### Orchestrator sort (`server.py` lines 182-184) -/

/-- `cat_order = {"Quant APIs": 0, "Cloud Providers": 1, "NYSE & Financial": 2}`
with `.get(category, 9)`. -/
def cat_order (c : String) : Nat :=
  if c = "Quant APIs" then 0
  else if c = "Cloud Providers" then 1
  else if c = "NYSE & Financial" then 2
  else 9

/-- The comparison induced by the sort key
`(cat_order.get(r["category"], 9), r["name"])` of `server.py` line 184. -/
def resultLe (x y : TargetResult) : Prop :=
  cat_order x.category < cat_order y.category ∨
    (cat_order x.category = cat_order y.category ∧ x.name ≤ y.name)

instance : DecidableRel resultLe := fun x y => by
  unfold resultLe
  infer_instance

/-- `results.sort(key=lambda r: (cat_order.get(r["category"], 9), r["name"]))`:
a stable sort by the key above (Python's stable sort and insertion sort by the
same key agree on every input). -/
def sortResults (rs : List TargetResult) : List TargetResult :=
  List.insertionSort resultLe rs

/-- The strict part of `resultLe`: the sort key of `x` is strictly below the
sort key of `y`. -/
def resultLt (x y : TargetResult) : Prop :=
  cat_order x.category < cat_order y.category ∨
    (cat_order x.category = cat_order y.category ∧ x.name < y.name)

/-! ### Concurrent resolver interleavings

Two workers concurrently execute `geolocate_ip` for the same `ip`.  `GEO_LOCK`
is held only for the cache check of lines 86-88 and for the insert of lines
105-106, and is released around the network call, so each worker's execution
splits into two atomic phases that other workers may interleave with. -/

/-- Control state of one worker running `geolocate_ip ip`:
`pc = 0` — about to run the locked cache check (lines 84-88);
`pc = 1` — observed a cache miss, about to perform the network call and the
locked insert (lines 89-110); `pc = 2` — returned, with result `res`. -/
structure Worker where
  pc : Nat
  res : Option Geo
deriving DecidableEq, Repr

/-- Shared state plus both workers; `calls` counts issued network requests. -/
structure ResolverSys where
  cache : GeoCache
  calls : Nat
  wa : Worker
  wb : Worker
deriving DecidableEq, Repr

/-- One atomic phase of a worker running `geolocate_ip ip` whose network
response would be `resp`. -/
def workerStep (ip : String) (resp : NetResponse) (c : GeoCache) (calls : Nat)
    (w : Worker) : GeoCache × Nat × Worker :=
  if w.pc = 0 then
    if privateFiltered ip then (c, calls, ⟨2, none⟩)
    else
      match cacheLookup ip c with
      | some g => (c, calls, ⟨2, some g⟩)
      | none => (c, calls, ⟨1, none⟩)
  else if w.pc = 1 then
    match resp with
    | .err => (c, calls + 1, ⟨2, none⟩)
    | .ok status lat lon ci re co i o a =>
      if status = "success" then
        match lat, lon with
        | some la, some lo =>
          let g : Geo := ⟨la, lo, ci.getD "", re.getD "", co.getD "", i.getD "",
            o.getD "", a.getD ""⟩
          (cacheInsert ip g c, calls + 1, ⟨2, some g⟩)
        | _, _ => (c, calls + 1, ⟨2, none⟩)
      else (c, calls + 1, ⟨2, none⟩)
  else (c, calls, w)

/-- Run a schedule: `true` steps worker A, `false` steps worker B. -/
def runSched (ip : String) (respA respB : NetResponse) :
    List Bool → ResolverSys → ResolverSys
  | [], s => s
  | pickA :: rest, s =>
    let s' :=
      if pickA then
        let t := workerStep ip respA s.cache s.calls s.wa
        { s with cache := t.1, calls := t.2.1, wa := t.2.2 }
      else
        let t := workerStep ip respB s.cache s.calls s.wb
        { s with cache := t.1, calls := t.2.1, wb := t.2.2 }
    runSched ip respA respB rest s'

/-- Both workers at their entry point, empty cache, no calls issued. -/
def initSys : ResolverSys := ⟨[], 0, ⟨0, none⟩, ⟨0, none⟩⟩

/-- Dotted-quad rendering of four octets. -/
def ipStr (a b c d : Nat) : String :=
  toString a ++ "." ++ toString b ++ "." ++ toString c ++ "." ++ toString d

/-- Sample geo value produced by worker A's successful response. -/
def geoA : Geo := ⟨1, 1, "", "", "", "", "", ""⟩

/-- Sample geo value produced by worker B's successful response. -/
def geoB : Geo := ⟨2, 2, "", "", "", "", "", ""⟩

/-- Worker A's network response: success carrying `geoA`'s coordinates. -/
def respA : NetResponse := .ok "success" (some 1) (some 1) none none none none none none

/-- Worker B's network response: success carrying `geoB`'s coordinates. -/
def respB : NetResponse := .ok "success" (some 2) (some 2) none none none none none none

/-! ### Helper lemmas: strings and prefixes -/

theorem dot_data : ("." : String).data = ['.'] := rfl

theorem ipStr_data (a b c d : Nat) :
    (ipStr a b c d).data =
      (toString a).data ++ '.' :: ((toString b).data ++ '.' ::
        ((toString c).data ++ '.' :: (toString d).data)) := by
  simp [ipStr, String.data_append, dot_data]

theorem pyStartswith_true (s p : String) (r : List Char) (h : s.data = p.data ++ r) :
    pyStartswith s p = true := by
  unfold pyStartswith
  rw [h]
  exact List.isPrefixOf_iff_prefix.mpr (List.prefix_append _ _)

/-! ### C2 — probe failure result -/

/-- C2 counterexample: for a target whose probing utility is entirely
unavailable (both attempts fail), the produced result has `hop_count = 0`,
empty hops and absent total latency, but its `error` field is ABSENT: the
claim's non-empty error description does not appear, because `process_target`
discards the `"error"` entry of the dictionary returned by `run_traceroute`. -/
theorem c2_error_field_dropped :
    (process_target "Quant APIs" ⟨"n", "h"⟩ (.fail "probe failed") []
        (fun _ => .err)).map
        (fun p => (p.1.error, p.1.hop_count, p.1.hops, p.1.total_rtt)) =
      .ok (none, 0, [], none) := rfl

/-- C2 (amended): for every target whose probing utility is entirely
unavailable (both probe attempts fail), the produced TargetResult has
`hopCount` 0, an empty hop sequence, `totalLatency` absent, and NO error
field (the descriptive error produced by `run_traceroute` is not propagated
into the TargetResult). -/
theorem c2_probe_failure_result (category : String) (t : Target) (msg : String)
    (st : GeoCache) (net : String → NetResponse) :
    process_target category t (.fail msg) st net =
      .ok (⟨t.name, t.host, category, 0, none, [], none⟩, st) := rfl

/-! ### C6 — private ranges rejected locally -/

/-- C6: every IPv4 address in the private ranges 10.0.0.0/8, 192.168.0.0/16 or
172.16.0.0/12, rendered as a dotted quad, is rejected locally by
`geolocate_ip`: the result is no geo, the cache is unchanged, and no network
call is performed. -/
theorem c6_private_ranges_rejected (a b c d : Nat) (st : GeoCache)
    (net : String → NetResponse)
    (hb : b ≤ 255) (hc : c ≤ 255) (hd : d ≤ 255)
    (hrange : a = 10 ∨ (a = 192 ∧ b = 168) ∨ (a = 172 ∧ 16 ≤ b ∧ b ≤ 31)) :
    geolocate_ip (ipStr a b c d) st net = (none, st, false) := by
  have hfilter : privateFiltered (ipStr a b c d) = true := by
    rcases hrange with rfl | ⟨rfl, rfl⟩ | ⟨rfl, hb1, hb2⟩
    · have h10 : pyStartswith (ipStr 10 b c d) "10." = true := by
        apply pyStartswith_true _ _
          ((toString b).data ++ '.' :: ((toString c).data ++ '.' :: (toString d).data))
        rw [ipStr_data]
        rfl
      simp [privateFiltered, h10]
    · have h192 : pyStartswith (ipStr 192 168 c d) "192.168." = true := by
        apply pyStartswith_true _ _ ((toString c).data ++ '.' :: (toString d).data)
        rw [ipStr_data]
        rfl
      simp [privateFiltered, h192]
    · have h172 : pyStartswith (ipStr 172 b c d) "172." = true := by
        apply pyStartswith_true _ _
          ((toString b).data ++ '.' :: ((toString c).data ++ '.' :: (toString d).data))
        rw [ipStr_data]
        rfl
      simp [privateFiltered, h172]
  simp [geolocate_ip, hfilter]

/-- C6 witness: the theorem applied to 10.0.0.1 with an empty cache and an
erroring network. -/
theorem c6_private_ranges_rejected_witness :
    geolocate_ip (ipStr 10 0 0 1) [] (fun _ => .err) = (none, [], false) :=
  c6_private_ranges_rejected 10 0 0 1 [] (fun _ => .err)
    (by decide) (by decide) (by decide) (Or.inl rfl)

/-! ### C10 — every "172." address rejected, public ones included -/

/-- C10: every IP string beginning with "172." — including public addresses
outside 172.16.0.0/12 — yields no geo from `geolocate_ip`, with no cache
change and no network call (line 84 tests only the textual prefix "172."). -/
theorem c10_prefix_172_rejected (ip : String) (st : GeoCache)
    (net : String → NetResponse) (h : pyStartswith ip "172." = true) :
    geolocate_ip ip st net = (none, st, false) := by
  have hf : privateFiltered ip = true := by simp [privateFiltered, h]
  simp [geolocate_ip, hf]

/-- C10 witness: the public address 172.32.0.1 is rejected without a call. -/
theorem c10_prefix_172_rejected_witness :
    geolocate_ip "172.32.0.1" [] (fun _ => .err) = (none, [], false) :=
  c10_prefix_172_rejected "172.32.0.1" [] (fun _ => .err) (by decide)

/-! ### C8 — failed lookups leave the cache unchanged -/

/-- C8: when the network lookup for an uncached, unfiltered IP ends in a
transport error / timeout (modelled by `.err`, the bare `except` of line 108)
or in a response whose status is not "success", `geolocate_ip` returns no geo
and leaves the cache exactly as it was (no entry inserted). -/
theorem c8_failed_lookup_no_cache (ip : String) (st : GeoCache)
    (net : String → NetResponse)
    (hfilter : privateFiltered ip = false)
    (hmiss : cacheLookup ip st = none)
    (hresp : net ip = .err ∨ ∀ status la lo ci re co i o a,
      net ip = .ok status la lo ci re co i o a → status ≠ "success") :
    geolocate_ip ip st net = (none, st, true) := by
  rcases hresp with herr | hns
  · simp [geolocate_ip, hfilter, hmiss, herr]
  · cases hnet : net ip with
    | err => simp [geolocate_ip, hfilter, hmiss, hnet]
    | ok status la lo ci re co i o a =>
      have hne : status ≠ "success" := hns status la lo ci re co i o a hnet
      simp [geolocate_ip, hfilter, hmiss, hnet, hne]

/-- C8 witness: an erroring transport for 8.8.8.8 on an empty cache. -/
theorem c8_failed_lookup_no_cache_witness :
    geolocate_ip "8.8.8.8" [] (fun _ => .err) = (none, [], true) :=
  c8_failed_lookup_no_cache "8.8.8.8" [] (fun _ => .err) (by decide) rfl (Or.inl rfl)

/-! ### C9 — cache insertion under concurrency -/

/-- C9 counterexample: resolving the same IP twice concurrently, with both
workers passing the locked cache check before either performs its network
call (schedule A-check, B-check, A-insert, B-insert), records TWO successful
network calls in the cache, and the later insertion overwrites the earlier
value: the first value `geoA` is not kept. -/
theorem c9_concurrent_overwrite :
    (runSched "1.1.1.1" respA respB [true, false, true, false] initSys).calls = 2 ∧
    cacheLookup "1.1.1.1"
      (runSched "1.1.1.1" respA respB [true, false, true, false] initSys).cache =
        some geoB ∧
    geoB ≠ geoA := by decide

/-- C9 (amended): sequential resolutions of the same IP are idempotent — after
one worker completes a successful resolution, a second worker's locked cache
check hits and it performs no network call, returning the first worker's
value; under true concurrency, however, both workers may each perform a
network call and the later insertion overwrites the earlier value (last write
wins). -/
theorem c9_sequential_single_call (ip : String) (la lo la2 lo2 : ℚ)
    (hip : privateFiltered ip = false) :
    (runSched ip (.ok "success" (some la) (some lo) none none none none none none)
        (.ok "success" (some la2) (some lo2) none none none none none none)
        [true, true, false, false] initSys).calls = 1 ∧
    (runSched ip (.ok "success" (some la) (some lo) none none none none none none)
        (.ok "success" (some la2) (some lo2) none none none none none none)
        [true, true, false, false] initSys).wb.res =
      some ⟨la, lo, "", "", "", "", "", ""⟩ ∧
    cacheLookup ip
      (runSched ip (.ok "success" (some la) (some lo) none none none none none none)
        (.ok "success" (some la2) (some lo2) none none none none none none)
        [true, true, false, false] initSys).cache =
      some ⟨la, lo, "", "", "", "", "", ""⟩ := by
  simp [runSched, workerStep, initSys, hip, cacheLookup, cacheInsert]

/-- C9 witness: the amended theorem at 1.1.1.1 with two distinct responses. -/
theorem c9_sequential_single_call_witness :
    (runSched "1.1.1.1" (.ok "success" (some 1) (some 1) none none none none none none)
        (.ok "success" (some 2) (some 2) none none none none none none)
        [true, true, false, false] initSys).calls = 1 ∧
    (runSched "1.1.1.1" (.ok "success" (some 1) (some 1) none none none none none none)
        (.ok "success" (some 2) (some 2) none none none none none none)
        [true, true, false, false] initSys).wb.res =
      some ⟨1, 1, "", "", "", "", "", ""⟩ ∧
    cacheLookup "1.1.1.1"
      (runSched "1.1.1.1" (.ok "success" (some 1) (some 1) none none none none none none)
        (.ok "success" (some 2) (some 2) none none none none none none)
        [true, true, false, false] initSys).cache =
      some ⟨1, 1, "", "", "", "", "", ""⟩ :=
  c9_sequential_single_call "1.1.1.1" 1 1 2 2 (by decide)

/-! ### C3 — total latency -/

theorem totalRtt_spec (hops : List Hop) :
    (∀ hp q, hops.getLast? = some hp → hp.rtt_ms = some q → q ≠ 0 →
      totalRtt hops = some q) ∧
    (totalRtt hops = none ↔ hops = [] ∨ ∃ hp, hops.getLast? = some hp ∧
      (hp.rtt_ms = none ∨ hp.rtt_ms = some 0)) := by
  constructor
  · intro hp q hlast hrtt hq
    unfold totalRtt
    rw [hlast]
    dsimp only
    rw [hrtt]
    simp [hq]
  · unfold totalRtt
    cases hlast : hops.getLast? with
    | none =>
      rw [List.getLast?_eq_none_iff] at hlast
      simp [hlast]
    | some hp =>
      have hne : hops ≠ [] := by
        intro h
        rw [h] at hlast
        exact absurd hlast (by simp)
      cases hrtt : hp.rtt_ms with
      | none => simp [hne, hrtt]
      | some q =>
        by_cases hq : q = 0
        · simp [hne, hq, hrtt]
        · simp [hne, hq, hrtt]

/-- C3 counterexample: the full pipeline on probe output whose single (final)
hop has rtt 0.0 produces a TargetResult with ABSENT `total_rtt` — the claim's
"including rtt 0.0" fails because line 144 tests the rtt for Python
truthiness, and `0.0` is falsy. -/
theorem c3_zero_rtt_total_absent :
    (process_target "Cloud Providers" ⟨"n", "h"⟩
        (.ok "traceroute to h\n 1  1.2.3.4  0.0 ms") [] (fun _ => .err)).map
        (fun p => (p.1.total_rtt, p.1.hops.map Hop.rtt_ms)) =
      .ok (none, [some 0]) := rfl

/-- C3 (amended): for every successfully produced TargetResult, `total_rtt`
equals the rtt of the final hop whenever the final hop has a NONZERO rtt, and
is absent exactly when the hop sequence is empty, the final hop has no rtt, or
the final hop's rtt is 0.0. -/
theorem c3_total_latency_spec (category : String) (t : Target) (o : TrOutcome)
    (st : GeoCache) (net : String → NetResponse) (r : TargetResult)
    (st' : GeoCache)
    (h : process_target category t o st net = .ok (r, st')) :
    (∀ hp q, r.hops.getLast? = some hp → hp.rtt_ms = some q → q ≠ 0 →
      r.total_rtt = some q) ∧
    (r.total_rtt = none ↔ r.hops = [] ∨ ∃ hp, r.hops.getLast? = some hp ∧
      (hp.rtt_ms = none ∨ hp.rtt_ms = some 0)) := by
  unfold process_target at h
  cases hrt : run_traceroute o with
  | error e =>
    rw [hrt] at h
    exact absurd h (by simp)
  | ok tr =>
    rw [hrt] at h
    simp only [Except.ok.injEq, Prod.mk.injEq] at h
    obtain ⟨hr, hst⟩ := h
    subst hst
    subst hr
    exact totalRtt_spec _

/-- C3 witness: the amended theorem applied to a one-hop trace with rtt 5.0,
whose TargetResult indeed carries `total_rtt = 5`. -/
theorem c3_total_latency_spec_witness :
    (process_target "c" ⟨"n", "h"⟩ (.ok "x\n 1  a (1.2.3.4)  5.0 ms") []
        (fun _ => .err)).map (fun p => p.1.total_rtt) = .ok (some 5) := by
  have h : process_target "c" ⟨"n", "h"⟩ (.ok "x\n 1  a (1.2.3.4)  5.0 ms") []
      (fun _ => .err) =
      .ok (⟨"n", "h", "c", 1,
        totalRtt [⟨1, "a", some "1.2.3.4", some 5, none⟩],
        [⟨1, "a", some "1.2.3.4", some 5, none⟩], none⟩, []) := rfl
  have h2 := (c3_total_latency_spec "c" ⟨"n", "h"⟩
      (.ok "x\n 1  a (1.2.3.4)  5.0 ms") [] (fun _ => .err) _ _ h).1
      ⟨1, "a", some "1.2.3.4", some 5, none⟩ 5 rfl rfl (by decide)
  rw [h]
  simpa [Except.map] using h2

/-! ### C4 — deterministic orchestrator ordering -/

instance : IsTotal TargetResult resultLe := by
  constructor
  intro a b
  rcases Nat.lt_trichotomy (cat_order a.category) (cat_order b.category) with h | h | h
  · exact Or.inl (Or.inl h)
  · rcases le_total a.name b.name with hn | hn
    · exact Or.inl (Or.inr ⟨h, hn⟩)
    · exact Or.inr (Or.inr ⟨h.symm, hn⟩)
  · exact Or.inr (Or.inl h)

instance : IsTrans TargetResult resultLe := by
  constructor
  intro a b c hab hbc
  rcases hab with h1 | ⟨h1, hn1⟩
  · rcases hbc with h2 | ⟨h2, _⟩
    · exact Or.inl (h1.trans h2)
    · exact Or.inl (h2 ▸ h1)
  · rcases hbc with h2 | ⟨h2, hn2⟩
    · exact Or.inl (h1 ▸ h2)
    · exact Or.inr ⟨h1.trans h2, hn1.trans hn2⟩

instance : IsAntisymm TargetResult resultLt := by
  constructor
  intro a b hab hba
  exfalso
  rcases hab with h1 | ⟨h1, hn1⟩
  · rcases hba with h2 | ⟨h2, _⟩
    · exact Nat.lt_asymm h1 h2
    · exact absurd h2 (Nat.ne_of_lt h1).symm
  · rcases hba with h2 | ⟨h2, hn2⟩
    · exact absurd h1 (Nat.ne_of_lt h2).symm
    · exact lt_asymm hn1 hn2

/-- A non-strict key comparison between results with distinct keys is strict. -/
theorem resultLt_of_le_of_ne {a b : TargetResult} (hle : resultLe a b)
    (hne : (cat_order a.category, a.name) ≠ (cat_order b.category, b.name)) :
    resultLt a b := by
  rcases hle with h | ⟨h, hn⟩
  · exact Or.inl h
  · refine Or.inr ⟨h, lt_of_le_of_ne hn ?_⟩
    intro heq
    exact hne (by rw [h, heq])

/-- C4 counterexample: two results sharing both category and name (with
different hosts) sort differently depending on completion order — the two
lists are permutations of each other (same fixed target list, different
completion orders) yet the sorted outputs differ, so the output is NOT
independent of worker completion order. -/
theorem c4_duplicate_key_order_dependent :
    ([⟨"a", "h1", "Quant APIs", 0, none, [], none⟩,
      ⟨"a", "h2", "Quant APIs", 0, none, [], none⟩] :
        List TargetResult).Perm
      [⟨"a", "h2", "Quant APIs", 0, none, [], none⟩,
       ⟨"a", "h1", "Quant APIs", 0, none, [], none⟩] ∧
    sortResults [⟨"a", "h1", "Quant APIs", 0, none, [], none⟩,
        ⟨"a", "h2", "Quant APIs", 0, none, [], none⟩] ≠
      sortResults [⟨"a", "h2", "Quant APIs", 0, none, [], none⟩,
        ⟨"a", "h1", "Quant APIs", 0, none, [], none⟩] := by
  constructor
  · exact List.Perm.swap _ _ _
  · have hle : resultLe ⟨"a", "h1", "Quant APIs", 0, none, [], none⟩
        ⟨"a", "h2", "Quant APIs", 0, none, [], none⟩ :=
      Or.inr ⟨rfl, le_refl _⟩
    have hle2 : resultLe ⟨"a", "h2", "Quant APIs", 0, none, [], none⟩
        ⟨"a", "h1", "Quant APIs", 0, none, [], none⟩ :=
      Or.inr ⟨rfl, le_refl _⟩
    have e1 : sortResults [⟨"a", "h1", "Quant APIs", 0, none, [], none⟩,
        ⟨"a", "h2", "Quant APIs", 0, none, [], none⟩] =
        [⟨"a", "h1", "Quant APIs", 0, none, [], none⟩,
         ⟨"a", "h2", "Quant APIs", 0, none, [], none⟩] := by
      simp [sortResults, List.insertionSort, List.orderedInsert, hle]
    have e2 : sortResults [⟨"a", "h2", "Quant APIs", 0, none, [], none⟩,
        ⟨"a", "h1", "Quant APIs", 0, none, [], none⟩] =
        [⟨"a", "h2", "Quant APIs", 0, none, [], none⟩,
         ⟨"a", "h1", "Quant APIs", 0, none, [], none⟩] := by
      simp [sortResults, List.insertionSort, List.orderedInsert, hle2]
    rw [e1, e2]
    intro h
    simp at h

/-- C4 (amended): for every fixed target list in which no two results share
both the category-precedence rank and the name, the orchestrator's sorted
output is identical regardless of the order in which workers complete
(i.e. it is the same for any two permutations of the collected results):
results are ordered by the fixed category precedence (the three known
categories in order, any other category last), ties broken by name. -/
theorem c4_sort_deterministic (rs1 rs2 : List TargetResult)
    (hperm : rs1.Perm rs2)
    (hkeys : rs1.Pairwise (fun a b =>
      (cat_order a.category, a.name) ≠ (cat_order b.category, b.name))) :
    sortResults rs1 = sortResults rs2 := by
  have hsym : ∀ a b : TargetResult,
      (cat_order a.category, a.name) ≠ (cat_order b.category, b.name) →
      (cat_order b.category, b.name) ≠ (cat_order a.category, a.name) :=
    fun a b h => Ne.symm h
  have hkeys2 : rs2.Pairwise (fun a b =>
      (cat_order a.category, a.name) ≠ (cat_order b.category, b.name)) :=
    (hperm.pairwise_iff fun hab => Ne.symm hab).mp hkeys
  have hp1 : (sortResults rs1).Perm rs1 := List.perm_insertionSort resultLe rs1
  have hp2 : (sortResults rs2).Perm rs2 := List.perm_insertionSort resultLe rs2
  have hs1 : (sortResults rs1).Sorted resultLe := List.sorted_insertionSort resultLe rs1
  have hs2 : (sortResults rs2).Sorted resultLe := List.sorted_insertionSort resultLe rs2
  have hk1 : (sortResults rs1).Pairwise (fun a b =>
      (cat_order a.category, a.name) ≠ (cat_order b.category, b.name)) :=
    (hp1.pairwise_iff fun hab => Ne.symm hab).mpr hkeys
  have hk2 : (sortResults rs2).Pairwise (fun a b =>
      (cat_order a.category, a.name) ≠ (cat_order b.category, b.name)) :=
    (hp2.pairwise_iff fun hab => Ne.symm hab).mpr hkeys2
  have hlt1 : (sortResults rs1).Sorted resultLt :=
    (hs1.and hk1).imp fun h => resultLt_of_le_of_ne h.1 h.2
  have hlt2 : (sortResults rs2).Sorted resultLt :=
    (hs2.and hk2).imp fun h => resultLt_of_le_of_ne h.1 h.2
  exact List.eq_of_perm_of_sorted (hp1.trans (hperm.trans hp2.symm)) hlt1 hlt2

/-- C4 witness: two distinct-key results in swapped completion orders sort to
the same output list. -/
theorem c4_sort_deterministic_witness :
    sortResults [⟨"b", "h1", "Quant APIs", 0, none, [], none⟩,
      ⟨"a", "h2", "Cloud Providers", 0, none, [], none⟩] =
    sortResults [⟨"a", "h2", "Cloud Providers", 0, none, [], none⟩,
      ⟨"b", "h1", "Quant APIs", 0, none, [], none⟩] :=
  c4_sort_deterministic _ _ (List.Perm.swap _ _ _)
    (by
      constructor
      · intro b hb
        simp at hb
        subst hb
        simp [cat_order]
      · simp)

/-! ### Helper lemmas: the scanning primitives -/

theorem pyWs_cases {c : Char} (h : pyWs c = true) :
    c = ' ' ∨ c = '\t' ∨ c = '\n' ∨ c = '\r' ∨ c = '\x0b' ∨ c = '\x0c' := by
  simpa [pyWs, or_assoc] using h

theorem ws_not_digit {c : Char} (h : pyWs c = true) : pyDigit c = false := by
  rcases pyWs_cases h with h | h | h | h | h | h <;> subst h <;> decide

theorem ws_not_floatClass {c : Char} (h : pyWs c = true) : floatClass c = false := by
  rcases pyWs_cases h with h | h | h | h | h | h <;> subst h <;> decide

theorem digit_not_ws {c : Char} (h : pyDigit c = true) : pyWs c = false := by
  cases hw : pyWs c
  · rfl
  · rw [ws_not_digit hw] at h
    exact absurd h (by simp)

theorem floatClass_not_ws {c : Char} (h : floatClass c = true) : pyWs c = false := by
  cases hw : pyWs c
  · rfl
  · rw [ws_not_floatClass hw] at h
    exact absurd h (by simp)

theorem digit_floatClass {c : Char} (h : pyDigit c = true) : floatClass c = true := by
  simp [floatClass, pyDigit] at h ⊢
  exact Or.inl h

theorem takeWhile1_app (p : Char → Bool) (a b : List Char) (ha : a ≠ [])
    (hall : ∀ x ∈ a, p x = true) (hb : ∀ c, b.head? = some c → p c = false) :
    takeWhile1 p (a ++ b) = some (a, b) := by
  have h1 : (a ++ b).takeWhile p = a := by
    rw [List.takeWhile_append_of_pos hall]
    cases b with
    | nil => simp
    | cons c bs => simp [List.takeWhile_cons, hb c rfl]
  have h2 : (a ++ b).dropWhile p = b := by
    rw [List.dropWhile_append_of_pos hall]
    cases b with
    | nil => simp
    | cons c bs => simp [List.dropWhile_cons, hb c rfl]
  unfold takeWhile1
  rw [h1, h2]
  cases a with
  | nil => exact absurd rfl ha
  | cons x xs => rfl

theorem takeWhile1_pos (p : Char → Bool) (x : Char) (xs b : List Char)
    (hx : p x = true) (hall : ∀ c ∈ xs, p c = true)
    (hb : ∀ c, b.head? = some c → p c = false) :
    takeWhile1 p (x :: (xs ++ b)) = some (x :: xs, b) := by
  have h := takeWhile1_app p (x :: xs) b (by simp)
    (fun c hc => by
      rcases List.mem_cons.mp hc with rfl | hc2
      · exact hx
      · exact hall c hc2) hb
  simpa using h

theorem takeWhile1_cons_false (p : Char → Bool) (x : Char) (l : List Char)
    (hx : p x = false) : takeWhile1 p (x :: l) = none := by
  unfold takeWhile1
  simp [List.takeWhile_cons, hx]

theorem takeWhile1_tail (p : Char → Bool) (l t r : List Char)
    (h : takeWhile1 p l = some (t, r)) : r = l.dropWhile p := by
  unfold takeWhile1 at h
  cases htw : l.takeWhile p with
  | nil =>
    rw [htw] at h
    exact absurd h (by simp)
  | cons a t2 =>
    rw [htw] at h
    simp only [Option.some.injEq, Prod.mk.injEq] at h
    exact h.2.symm

theorem dropSpaces_ws_append (w l : List Char) (hw : ∀ c ∈ w, pyWs c = true) :
    dropSpaces (w ++ l) = dropSpaces l := by
  unfold dropSpaces
  exact List.dropWhile_append_of_pos hw

theorem dropSpaces_cons_not (x : Char) (l : List Char) (hx : pyWs x = false) :
    dropSpaces (x :: l) = x :: l := by
  unfold dropSpaces
  simp [List.dropWhile_cons, hx]

theorem mem_of_mem_dropWhile {p : Char → Bool} {l : List Char} {c : Char}
    (h : c ∈ l.dropWhile p) : c ∈ l := (List.dropWhile_sublist p).subset h

theorem head_dropWhile_false {p : Char → Bool} {l : List Char} {c : Char}
    (h : (l.dropWhile p).head? = some c) : p c = false := by
  have h2 := List.head?_dropWhile_not p l
  rw [h] at h2
  simpa using h2

theorem expect_cons_self (c : Char) (r : List Char) : expect c (c :: r) = some r := by
  simp [expect]

theorem expect_cons_ne (c x : Char) (r : List Char) (h : x ≠ c) :
    expect c (x :: r) = none := by
  simp [expect, h]

/-! ### Matcher specification lemmas -/

theorem matchIdxWs_spec (w0 : List Char) (d0 : Char) (ds : List Char) (e0 : Char)
    (w1 : List Char) (b : List Char)
    (hw0 : ∀ x ∈ w0, pyWs x = true) (hd0 : pyDigit d0 = true)
    (hds : ∀ x ∈ ds, pyDigit x = true)
    (he0 : pyWs e0 = true) (hw1 : ∀ x ∈ w1, pyWs x = true)
    (hb : ∀ c, b.head? = some c → pyWs c = false) :
    matchIdxWs (w0 ++ (d0 :: (ds ++ (e0 :: (w1 ++ b))))) = some (d0 :: ds, b) := by
  have hbDigit : ∀ c, (e0 :: (w1 ++ b)).head? = some c → pyDigit c = false := by
    intro c hc
    simp at hc
    subst hc
    exact ws_not_digit he0
  simp only [matchIdxWs, dropSpaces_ws_append w0 _ hw0,
    dropSpaces_cons_not d0 _ (digit_not_ws hd0),
    takeWhile1_pos pyDigit d0 ds (e0 :: (w1 ++ b)) hd0 hds hbDigit,
    takeWhile1_pos pyWs e0 w1 b he0 hw1 hb]

theorem dotDigits_spec (B : List Char) (c : Char) (r : List Char)
    (hB : B ≠ []) (hBall : ∀ x ∈ B, pyDigit x = true) (hc : pyDigit c = false) :
    dotDigits ('.' :: (B ++ c :: r)) = some (B, c :: r) := by
  simp only [dotDigits, expect_cons_self,
    takeWhile1_app pyDigit B (c :: r) hB hBall
      (fun x hx => by simp at hx; subst hx; exact hc)]

theorem matchQuad_spec (A B C D : List Char) (c : Char) (r : List Char)
    (hA : A ≠ []) (hAall : ∀ x ∈ A, pyDigit x = true)
    (hB : B ≠ []) (hBall : ∀ x ∈ B, pyDigit x = true)
    (hC : C ≠ []) (hCall : ∀ x ∈ C, pyDigit x = true)
    (hD : D ≠ []) (hDall : ∀ x ∈ D, pyDigit x = true)
    (hc : pyDigit c = false) :
    matchQuad (A ++ '.' :: (B ++ '.' :: (C ++ '.' :: (D ++ c :: r)))) =
      some (A ++ '.' :: B ++ '.' :: C ++ '.' :: D, c :: r) := by
  simp only [matchQuad,
    takeWhile1_app pyDigit A ('.' :: (B ++ '.' :: (C ++ '.' :: (D ++ c :: r))))
      hA hAall (fun x hx => by simp at hx; subst hx; decide),
    dotDigits_spec B '.' (C ++ '.' :: (D ++ c :: r)) hB hBall (by decide),
    dotDigits_spec C '.' (D ++ c :: r) hC hCall (by decide),
    dotDigits_spec D c r hD hDall hc, List.append_assoc]

theorem matchRttMs_spec (fs w4 tail : List Char)
    (hfs : fs ≠ []) (hfsall : ∀ x ∈ fs, floatClass x = true)
    (hw4 : ∀ x ∈ w4, pyWs x = true) :
    matchRttMs (fs ++ (w4 ++ 'm' :: 's' :: tail)) = some fs := by
  have hhead : ∀ c, (w4 ++ 'm' :: 's' :: tail).head? = some c → floatClass c = false := by
    intro c hc
    cases w4 with
    | nil => simp at hc; subst hc; decide
    | cons x xs =>
      simp at hc
      subst hc
      exact ws_not_floatClass (hw4 x (by simp))
  simp only [matchRttMs, takeWhile1_app floatClass fs _ hfs hfsall hhead,
    dropSpaces_ws_append w4 _ hw4, dropSpaces_cons_not 'm' _ (by decide),
    expect_cons_self]

theorem matchHopLine1_spec
    (w0 : List Char) (d0 : Char) (ds : List Char)
    (e0 : Char) (w1 : List Char)
    (h0 : Char) (hs : List Char)
    (f0 : Char) (w2 : List Char)
    (A B C D : List Char)
    (g0 : Char) (w3 : List Char)
    (fs : List Char) (w4 : List Char) (tail : List Char)
    (hw0 : ∀ x ∈ w0, pyWs x = true)
    (hd0 : pyDigit d0 = true) (hds : ∀ x ∈ ds, pyDigit x = true)
    (he0 : pyWs e0 = true) (hw1 : ∀ x ∈ w1, pyWs x = true)
    (hh0 : pyWs h0 = false) (hhs : ∀ x ∈ hs, pyWs x = false)
    (hf0 : pyWs f0 = true) (hw2 : ∀ x ∈ w2, pyWs x = true)
    (hA : A ≠ []) (hAall : ∀ x ∈ A, pyDigit x = true)
    (hB : B ≠ []) (hBall : ∀ x ∈ B, pyDigit x = true)
    (hC : C ≠ []) (hCall : ∀ x ∈ C, pyDigit x = true)
    (hD : D ≠ []) (hDall : ∀ x ∈ D, pyDigit x = true)
    (hg0 : pyWs g0 = true) (hw3 : ∀ x ∈ w3, pyWs x = true)
    (hfs : fs ≠ []) (hfsall : ∀ x ∈ fs, floatClass x = true)
    (hw4 : ∀ x ∈ w4, pyWs x = true) :
    matchHopLine1 (w0 ++ (d0 :: (ds ++ (e0 :: (w1 ++ (h0 :: (hs ++ (f0 :: (w2 ++ ('(' :: (A ++ ('.' :: (B ++ ('.' :: (C ++ ('.' :: (D ++ (')' :: (g0 :: (w3 ++ (fs ++ (w4 ++ 'm' :: 's' :: tail)))))))))))))))))))))) =
      some (natOfDigits (d0 :: ds), h0 :: hs, A ++ '.' :: B ++ '.' :: C ++ '.' :: D, fs) := by
  have hidx := matchIdxWs_spec w0 d0 ds e0 w1
    (h0 :: (hs ++ (f0 :: (w2 ++ ('(' :: (A ++ ('.' :: (B ++ ('.' :: (C ++ ('.' :: (D ++ (')' :: (g0 :: (w3 ++ (fs ++ (w4 ++ 'm' :: 's' :: tail)))))))))))))))))
    hw0 hd0 hds he0 hw1
    (fun c hc => by simp at hc; subst hc; exact hh0)
  have hhost := takeWhile1_pos (fun c => !pyWs c) h0 hs
    (f0 :: (w2 ++ ('(' :: (A ++ ('.' :: (B ++ ('.' :: (C ++ ('.' :: (D ++ (')' :: (g0 :: (w3 ++ (fs ++ (w4 ++ 'm' :: 's' :: tail)))))))))))))))
    (by simp [hh0]) (fun c hc => by simp [hhs c hc])
    (fun c hc => by simp at hc; subst hc; simp [hf0])
  have hws2 := takeWhile1_pos pyWs f0 w2
    ('(' :: (A ++ ('.' :: (B ++ ('.' :: (C ++ ('.' :: (D ++ (')' :: (g0 :: (w3 ++ (fs ++ (w4 ++ 'm' :: 's' :: tail)))))))))))))
    hf0 hw2 (fun c hc => by simp at hc; subst hc; decide)
  have hquad := matchQuad_spec A B C D ')'
    (g0 :: (w3 ++ (fs ++ (w4 ++ 'm' :: 's' :: tail))))
    hA hAall hB hBall hC hCall hD hDall (by decide)
  have hws3 := takeWhile1_pos pyWs g0 w3 (fs ++ (w4 ++ 'm' :: 's' :: tail))
    hg0 hw3
    (fun c hc => by
      cases fs with
      | nil => exact absurd rfl hfs
      | cons ff fs2 =>
        simp at hc
        subst hc
        exact floatClass_not_ws (hfsall ff (by simp)))
  have hrtt := matchRttMs_spec fs w4 tail hfs hfsall hw4
  simp only [matchHopLine1, hidx, hhost, hws2, expect_cons_self, hquad, hws3, hrtt]

/-! ### C7 — the named-hop line shape -/

/-- C7: every line of the shape `<ws?> <idx> <ws> <host> <ws> (<ipv4>) <ws>
<decimal> <ws?> ms <anything>` — index digits, whitespace, a non-whitespace
host token, whitespace, a parenthesized dotted quad, whitespace, a latency
token that Python's `float` accepts (value `q`), optional whitespace, the
literal `ms` — classifies as a named hop carrying that index, host, ip and
rtt. -/
theorem c7_named_hop_line
    (w0 : List Char) (d0 : Char) (ds : List Char)
    (e0 : Char) (w1 : List Char)
    (h0 : Char) (hs : List Char)
    (f0 : Char) (w2 : List Char)
    (A B C D : List Char)
    (g0 : Char) (w3 : List Char)
    (fs : List Char) (w4 : List Char) (tail : List Char) (q : ℚ)
    (hw0 : ∀ x ∈ w0, pyWs x = true)
    (hd0 : pyDigit d0 = true) (hds : ∀ x ∈ ds, pyDigit x = true)
    (he0 : pyWs e0 = true) (hw1 : ∀ x ∈ w1, pyWs x = true)
    (hh0 : pyWs h0 = false) (hhs : ∀ x ∈ hs, pyWs x = false)
    (hf0 : pyWs f0 = true) (hw2 : ∀ x ∈ w2, pyWs x = true)
    (hA : A ≠ []) (hAall : ∀ x ∈ A, pyDigit x = true)
    (hB : B ≠ []) (hBall : ∀ x ∈ B, pyDigit x = true)
    (hC : C ≠ []) (hCall : ∀ x ∈ C, pyDigit x = true)
    (hD : D ≠ []) (hDall : ∀ x ∈ D, pyDigit x = true)
    (hg0 : pyWs g0 = true) (hw3 : ∀ x ∈ w3, pyWs x = true)
    (hfs : fs ≠ []) (hfsall : ∀ x ∈ fs, floatClass x = true)
    (hw4 : ∀ x ∈ w4, pyWs x = true)
    (hq : pyFloat fs = some q) :
    lineToHop (w0 ++ (d0 :: (ds ++ (e0 :: (w1 ++ (h0 :: (hs ++ (f0 :: (w2 ++ ('(' :: (A ++ ('.' :: (B ++ ('.' :: (C ++ ('.' :: (D ++ (')' :: (g0 :: (w3 ++ (fs ++ (w4 ++ 'm' :: 's' :: tail)))))))))))))))))))))) =
      .ok (some ⟨natOfDigits (d0 :: ds), ⟨h0 :: hs⟩,
        some ⟨A ++ '.' :: B ++ '.' :: C ++ '.' :: D⟩, some q, none⟩) := by
  simp only [lineToHop,
    matchHopLine1_spec w0 d0 ds e0 w1 h0 hs f0 w2 A B C D g0 w3 fs w4 tail
      hw0 hd0 hds he0 hw1 hh0 hhs hf0 hw2 hA hAall hB hBall hC hCall hD hDall
      hg0 hw3 hfs hfsall hw4,
    hq]

/-- C7 witness: the spec's scenario line
`" 3  core1.example.net (93.184.216.34)  24.1 ms"` yields exactly the hop
with index 3, host "core1.example.net", ip "93.184.216.34" and rtt 24.1
(`mkRat 241 10 = 241/10 = 24.1`). -/
theorem c7_named_hop_line_witness :
    lineToHop " 3  core1.example.net (93.184.216.34)  24.1 ms".data =
      .ok (some ⟨3, "core1.example.net", some "93.184.216.34",
        some (mkRat 241 10), none⟩) ∧
    (mkRat 241 10 : ℚ) = 241 / 10 := by
  constructor
  · exact c7_named_hop_line [' '] '3' [] ' ' [' '] 'c' "ore1.example.net".data
      ' ' [] "93".data "184".data "216".data "34".data ' ' [' ']
      "24.1".data [' '] [] (mkRat 241 10)
      (by decide) (by decide) (by decide) (by decide) (by decide) (by decide)
      (by decide) (by decide) (by decide) (by decide) (by decide) (by decide)
      (by decide) (by decide) (by decide) (by decide) (by decide) (by decide)
      (by decide) (by decide) (by decide) (by decide) (by decide)
  · rw [Rat.mkRat_eq_div]
    norm_num

/-! ### C5 — timeout lines -/

theorem matchHopLine2_star_none (l : List Char) (ds : List Char) (rest : List Char)
    (hidx : matchIdxWs l = some (ds, '*' :: rest)) :
    matchHopLine2 l = none := by
  simp only [matchHopLine2, hidx, matchQuad,
    takeWhile1_cons_false pyDigit '*' rest (by decide)]

theorem matchHopLine3_star (l : List Char) (ds : List Char) (rest : List Char)
    (hidx : matchIdxWs l = some (ds, '*' :: rest)) :
    matchHopLine3 l = some (natOfDigits ds) := by
  simp only [matchHopLine3, hidx, expect_cons_self]

theorem matchHopLine1_star_none (l : List Char) (ds : List Char) (rest : List Char)
    (hidx : matchIdxWs l = some (ds, '*' :: rest)) (hparen : '(' ∉ rest) :
    matchHopLine1 l = none := by
  have hr : ('*' :: rest).dropWhile (fun c => !pyWs c) =
      rest.dropWhile (fun c => !pyWs c) := by
    simp only [List.dropWhile_cons, (by decide : (!pyWs '*') = true), if_true]
  cases h2 : takeWhile1 (fun c => !pyWs c) ('*' :: rest) with
  | none => simp only [matchHopLine1, hidx, h2]
  | some pr =>
    obtain ⟨t, r⟩ := pr
    have hrr : r = rest.dropWhile (fun c => !pyWs c) := by
      rw [takeWhile1_tail _ _ _ _ h2]
      exact hr
    cases h3 : takeWhile1 pyWs r with
    | none => simp only [matchHopLine1, hidx, h2, h3]
    | some pr2 =>
      obtain ⟨t2, r2⟩ := pr2
      have hr2 : r2 = r.dropWhile pyWs := takeWhile1_tail _ _ _ _ h3
      cases hc : r2 with
      | nil => simp only [matchHopLine1, hidx, h2, h3, hc, expect]
      | cons x r3 =>
        have hx : x ∈ rest := by
          have hx2 : x ∈ r2 := by rw [hc]; exact List.mem_cons_self x r3
          rw [hr2] at hx2
          have hx3 := mem_of_mem_dropWhile hx2
          rw [hrr] at hx3
          exact mem_of_mem_dropWhile hx3
        have hxne : x ≠ '(' := fun h => hparen (h ▸ hx)
        simp only [matchHopLine1, hidx, h2, h3, hc, expect_cons_ne '(' x r3 hxne]

/-- C5 counterexample: the line `"7 abc *"` has its index 7 followed by a `*`
later in the line, yet the parser produces NO hop at all (the line is
dropped): the `*` must appear immediately after the whitespace following the
index for the timeout pattern `\s*(\d+)\s+\*` to match under `re.match`. -/
theorem c5_star_not_immediate_dropped :
    parseHops "header\n7 abc *" = .ok [] ∧
      (Except.ok [] : Except String (List Hop)) ≠
        .ok [⟨7, "*", none, none, none⟩] := by
  constructor
  · rfl
  · intro h
    simp at h

/-- C5 (amended): for every input line consisting of an index whose digits are
IMMEDIATELY followed by whitespace and then the `*` character (with anything
after it, as long as the line contains no `'('` after the star, which would
allow the named-hop pattern to pre-empt), the parser produces a timeout hop
with host `"*"`, ip absent and rtt absent, and after enrichment such a hop's
geo is also absent. -/
theorem c5_timeout_line_spec (w0 : List Char) (d0 : Char) (ds : List Char)
    (e0 : Char) (w1 : List Char) (rest : List Char)
    (hw0 : ∀ x ∈ w0, pyWs x = true)
    (hd0 : pyDigit d0 = true) (hds : ∀ x ∈ ds, pyDigit x = true)
    (he0 : pyWs e0 = true) (hw1 : ∀ x ∈ w1, pyWs x = true)
    (hparen : '(' ∉ rest) :
    lineToHop (w0 ++ (d0 :: (ds ++ (e0 :: (w1 ++ '*' :: rest))))) =
      .ok (some ⟨natOfDigits (d0 :: ds), "*", none, none, none⟩) ∧
    ∀ st : GeoCache,
      (attachGeo st ⟨natOfDigits (d0 :: ds), "*", none, none, none⟩).geo = none := by
  have hidx := matchIdxWs_spec w0 d0 ds e0 w1 ('*' :: rest) hw0 hd0 hds he0 hw1
    (fun c hc => by simp at hc; subst hc; decide)
  constructor
  · simp only [lineToHop, matchHopLine1_star_none _ _ _ hidx hparen,
      matchHopLine2_star_none _ _ _ hidx, matchHopLine3_star _ _ _ hidx]
  · intro st
    simp [attachGeo]

/-- C5 witness: the spec's scenario line `" 7  * "`, stripped as in the
parsing loop, yields the timeout hop with index 7, and enrichment leaves its
geo absent. -/
theorem c5_timeout_line_spec_witness :
    lineToHop (pyStrip " 7  * ".data) =
      .ok (some ⟨7, "*", none, none, none⟩) ∧
    ∀ st : GeoCache, (attachGeo st ⟨7, "*", none, none, none⟩).geo = none :=
  c5_timeout_line_spec [] '7' [] ' ' [' '] []
    (by decide) (by decide) (by decide) (by decide) (by decide) (by decide)

/-! ### C1 — the parser can raise -/

/-- C1: the hop-parsing loop of `run_traceroute` is NOT total: on the probe
output below, the named-hop regex matches with latency group `"1.2.3"`
(the class `[\d.]+` admits more than one dot), and Python's
`float("1.2.3")` raises `ValueError`, which propagates out of
`run_traceroute` — contradicting the claim that every line either produces
one hop or is silently dropped. -/
theorem c1_parser_raises_on_malformed_float :
    run_traceroute (.ok "traceroute to example\n 1  host (1.2.3.4)  1.2.3 ms") =
      .error "ValueError" := rfl

end TracerouteDashboard
